import Mathlib

/-
  Verification development for the ORM layer (src/orm/field.py, src/orm/table.py).

  The Python code is shallowly embedded: Python runtime values become the
  inductive type PyVal (floats are modelled as exact rationals; the only float
  arithmetic in the source is bound comparison, which is exact on the literals
  involved), descriptor state stored on an instance becomes FieldSt, a table
  row instance becomes Inst, and Python exceptions become the error type PyErr
  of an Except computation.  Each constructor of PyErr carries a comment naming
  the Python exception class and message family it stands for.
-/

set_option maxHeartbeats 1000000

mutual

/-- Python runtime values as used by the ORM layer.  A datetime.datetime value
is represented by its seven components (naive datetimes only; the source never
manipulates tzinfo).  An objV is a Table instance of the named table type. -/
inductive PyVal where
  | none : PyVal
  | intV (n : Int) : PyVal
  | floatV (q : ℚ) : PyVal
  | strV (s : String) : PyVal
  | dtV (year month day hour minute second microsecond : Int) : PyVal
  | tupV (xs : List PyVal) : PyVal
  | objV (tname : String) (inst : Inst) : PyVal

/-- A Table instance: pk and version (both None while Transient), the
instance-level attribute is_reference_lazy_loaded (Option Bool: Lean none
models the attribute not existing yet; Python getattr with a default of True
is used at the one site that tolerates its absence), and one per-field stored
state, positionally aligned with the declared field order of its table type
(Table.__init__ iterates field_names, so every declared field has a state). -/
inductive Inst where
  | mk (pk version : Option Int) (lazyLoaded : Option Bool) (fields : List FieldSt) : Inst

/-- The attribute storage a Field descriptor keeps on one instance.
scalarSt holds the single _name attribute (Integer, Float, String and the
datetime value stored by DateTime before its component cache); dtSt holds the
_name attribute together with the seven cached component attributes; coordSt
holds the _name_latitude and _name_longitude attributes; foreignSt holds the
raw _name attribute of a Foreign field (None, an int pk, or the referenced
object itself). -/
inductive FieldSt where
  | scalarSt (v : PyVal) : FieldSt
  | dtSt (v : PyVal) (year month day hour minute second microsecond : Int) : FieldSt
  | coordSt (lat lon : PyVal) : FieldSt
  | foreignSt (ref : PyVal) : FieldSt

end

def Inst.pk : Inst → Option Int
  | .mk p _ _ _ => p

def Inst.version : Inst → Option Int
  | .mk _ v _ _ => v

def Inst.lazyLoaded : Inst → Option Bool
  | .mk _ _ l _ => l

def Inst.fields : Inst → List FieldSt
  | .mk _ _ _ fs => fs

/-- Python exceptions raised by the embedded code.  Each constructor stands
for one exception class together with the message family the source raises:
* missingValue: AttributeError "Cannot leave field ... blank" (the spec's
  MissingValueError);
* typeMismatch: TypeError "Setting ...: expecting ..." (TypeMismatchError);
* invalidChoice: ValueError "Invalid value ... for field ..." (InvalidChoiceError);
* boundsValue: ValueError "Latitude value not bounded between -90.0 and 90.0";
* configError: the declaration-time failures (TypeError for bad defaults and
  choices in Field.__init__ and Coordinate.__init__, AttributeError for a
  duplicate table name or invalid column name in MetaTable.__init__) — the
  spec's ConfigError;
* unsupportedOperator: AttributeError "The operator ... is not supported";
* unknownField: AttributeError "The field ... does not exist";
* noPkAttribute: AttributeError on accessing .pk of an object without it
  (e.g. 'NoneType' object has no attribute 'pk' in Table.save);
* missingAttribute: AttributeError on a missing instance attribute
  (e.g. is_reference_lazy_loaded accessed without a getattr default);
* typeErrorOther: a TypeError outside field binding (e.g. datetime()
  called with non-integer arguments);
* valueErrorOther: a ValueError outside field binding (e.g. datetime()
  called with out-of-range components, or tuple unpacking of a split);
* keyError: KeyError from cls.__dict__[col_name];
* indexError: IndexError from results[0] on an empty list;
* stopIteration: StopIteration from next() on an exhausted stream;
* recursionError: RecursionError (the embedding's fuel bound standing for
  Python's recursion limit on cyclic cascading saves). -/
inductive PyErr where
  | missingValue : PyErr
  | typeMismatch : PyErr
  | invalidChoice : PyErr
  | boundsValue : PyErr
  | configError : PyErr
  | unsupportedOperator : PyErr
  | unknownField : PyErr
  | noPkAttribute : PyErr
  | missingAttribute : PyErr
  | typeErrorOther : PyErr
  | valueErrorOther : PyErr
  | keyError : PyErr
  | indexError : PyErr
  | stopIteration : PyErr
  | recursionError : PyErr
deriving DecidableEq, Repr

/-- The Python type tags the source compares with type(x) == t. -/
inductive PyType where
  | intT | floatT | strT | datetimeT | tupleT | noneT
  | objT (tname : String)
deriving DecidableEq, Repr

/-- type(v) for the embedded values. -/
def pyTypeOf : PyVal → PyType
  | .none => .noneT
  | .intV _ => .intT
  | .floatV _ => .floatT
  | .strV _ => .strT
  | .dtV _ _ _ _ _ _ _ => .datetimeT
  | .tupV _ => .tupleT
  | .objV tn _ => .objT tn

mutual

/-- Python == on the embedded values: numeric equality across int and float,
componentwise on datetimes and tuples.  Python compares objects by identity
by default; two object references are conservatively unequal here (no claim
compares an object with an object). -/
def pyEq : PyVal → PyVal → Bool
  | .none, .none => true
  | .intV a, .intV b => a == b
  | .intV a, .floatV q => (a : ℚ) == q
  | .floatV q, .intV a => q == (a : ℚ)
  | .floatV a, .floatV b => a == b
  | .strV a, .strV b => a == b
  | .dtV a b c d e f g, .dtV a' b' c' d' e' f' g' =>
      a == a' && b == b' && c == c' && d == d' && e == e' && f == f' && g == g'
  | .tupV xs, .tupV ys => pyEqList xs ys
  | _, _ => false

/-- Pointwise Python == on lists (tuple comparison). -/
def pyEqList : List PyVal → List PyVal → Bool
  | [], [] => true
  | x :: xs, y :: ys => pyEq x y && pyEqList xs ys
  | _, _ => false

end

/-- Python membership v in xs, via Python ==. -/
def pyMem (v : PyVal) (xs : List PyVal) : Bool :=
  xs.any (fun x => pyEq v x)

/-- The shared configuration Field.__init__ computes for the descriptor
variants that use it (Integer, Float, String, DateTime) and that
Coordinate.__init__ computes by its own code: blank permission, resolved
default and optional choices. -/
structure FieldCore where
  blank_allowed : Bool
  default : PyVal
  choices : Option (List PyVal)

mutual

/-- One field descriptor as declared on a table class.  A Foreign descriptor
holds the referenced table type directly, exactly as Foreign.__init__ stores
the referenced class object (Python schemas cannot be cyclic: the referenced
class must already exist when the declaration runs). -/
inductive FieldSpec where
  | integer (c : FieldCore) : FieldSpec
  | float (c : FieldCore) : FieldSpec
  | string (c : FieldCore) : FieldSpec
  | dateTime (c : FieldCore) : FieldSpec
  | coordinate (c : FieldCore) : FieldSpec
  | foreign (blank_allowed : Bool) (ref : TableDef) : FieldSpec

/-- A registered table type: its name and its declared fields in declaration
order (MetaTable preserves declaration order via an OrderedDict namespace). -/
inductive TableDef where
  | mk (name : String) (fields : List (String × FieldSpec)) : TableDef

end

def TableDef.name : TableDef → String
  | .mk n _ => n

def TableDef.fields : TableDef → List (String × FieldSpec)
  | .mk _ fs => fs

def TableDef.fieldNames (td : TableDef) : List String :=
  td.fields.map Prod.fst

def FieldSpec.blank_allowed : FieldSpec → Bool
  | .integer c | .float c | .string c | .dateTime c | .coordinate c => c.blank_allowed
  | .foreign b _ => b

/-- The default parameter of a Field constructor: absent (Python None), a
literal value, or a callable; a callable is represented by the value it
returns when invoked (the source only ever calls it once, immediately). -/
inductive DefaultArg where
  | noDefault : DefaultArg
  | lit (v : PyVal) : DefaultArg
  | call (result : PyVal) : DefaultArg

/-- Field.__init__ (field.py lines 11-49): resolves blank_allowed, the default
and the choices.  base is the base_type argument and baseZero the value
base_type(*base_type_init_args) would construct (evaluated only when no
default is given, as in the source).  A literal of the wrong type is not
callable, and a callable never has the base type, so the source's elif chain
reduces to the two cases below.  All declaration-time TypeErrors are
configError. -/
def Field_init (blank : Bool) (default : DefaultArg) (choices : Option (List PyVal))
    (base : PyType) (baseZero : PyVal) : Except PyErr FieldCore :=
  let blank_allowed := blank || (match default with | .noDefault => false | _ => true)
  match (match default with
    | .noDefault => Except.ok baseZero
    | .lit v => if pyTypeOf v = base then Except.ok v else Except.error PyErr.configError
    | .call r => if pyTypeOf r = base then Except.ok r else Except.error PyErr.configError :
      Except PyErr PyVal) with
  | .error e => .error e
  | .ok d =>
    match (match choices with
      | Option.none => Except.ok ()
      | some cs => if cs.all (fun ch => pyTypeOf ch = base) then Except.ok ()
                   else Except.error PyErr.configError : Except PyErr Unit) with
    | .error e => .error e
    | .ok _ =>
      if blank_allowed ∧ choices.isSome ∧
          ¬ (pyMem d (choices.getD []) = true) then
        .error PyErr.configError
      else
        .ok ⟨blank_allowed, d, choices⟩

/-- Integer.__init__: Field.__init__ with base_type int. -/
def Integer_init (blank : Bool) (default : DefaultArg) (choices : Option (List PyVal)) :
    Except PyErr FieldSpec :=
  (Field_init blank default choices .intT (.intV 0)).map .integer

/-- Float.__init__: Field.__init__ with base_type float. -/
def Float_init (blank : Bool) (default : DefaultArg) (choices : Option (List PyVal)) :
    Except PyErr FieldSpec :=
  (Field_init blank default choices .floatT (.floatV 0)).map .float

/-- String.__init__: Field.__init__ with base_type str. -/
def String_init (blank : Bool) (default : DefaultArg) (choices : Option (List PyVal)) :
    Except PyErr FieldSpec :=
  (Field_init blank default choices .strT (.strV "")).map .string

/-- DateTime.__init__: Field.__init__ with base_type datetime.datetime and
base_type_init_args (1969, 12, 31, 19, 0, 0, 0). -/
def DateTime_init (blank : Bool) (default : DefaultArg) (choices : Option (List PyVal)) :
    Except PyErr FieldSpec :=
  (Field_init blank default choices .datetimeT (.dtV 1969 12 31 19 0 0 0)).map .dateTime

/-- The type pattern Coordinate.__init__ and Coordinate.__set__ test:
a 2-tuple whose two members are floats. -/
def isFloatPair : PyVal → Bool
  | .tupV [.floatV _, .floatV _] => true
  | _ => false

/-- Coordinate.__init__ (field.py lines 242-277).  Note the implicit default
is the int pair (0, 0), not a pair of floats. -/
def Coordinate_init (blank : Bool) (default : DefaultArg) (choices : Option (List PyVal)) :
    Except PyErr FieldSpec :=
  let blank_allowed := blank || (match default with | .noDefault => false | _ => true)
  match (match default with
    | .noDefault => Except.ok (PyVal.tupV [.intV 0, .intV 0])
    | .lit v => if isFloatPair v then Except.ok v else Except.error PyErr.configError
    | .call r => if isFloatPair r then Except.ok r else Except.error PyErr.configError :
      Except PyErr PyVal) with
  | .error e => .error e
  | .ok d =>
    match (match choices with
      | Option.none => Except.ok ()
      | some cs => if cs.all isFloatPair then Except.ok ()
                   else Except.error PyErr.configError : Except PyErr Unit) with
    | .error e => .error e
    | .ok _ =>
      if blank_allowed ∧ choices.isSome ∧
          ¬ (pyMem d (choices.getD []) = true) then
        .error PyErr.configError
      else
        .ok (.coordinate ⟨blank_allowed, d, choices⟩)

/-- Foreign.__init__: records only blank permission and the referenced table
type; no default and no choices exist for Foreign fields. -/
def Foreign_init (ref : TableDef) (blank : Bool) : FieldSpec :=
  .foreign blank ref

/-- obj.pk as a Python value (None or the int). -/
def pkToVal : Option Int → PyVal
  | Option.none => .none
  | some p => .intV p

/-- Coordinate.is_valid_coordinate: -90.0 <= v <= 90.0.  The values compared
here are always numeric (construction and binding admit only int/float
components); a non-numeric comparison would raise in Python and is
conservatively false here. -/
def is_valid_coordinate : PyVal → Bool
  | .intV n => decide (-90 ≤ n ∧ n ≤ 90)
  | .floatV q => decide (-90 ≤ q ∧ q ≤ 90)
  | _ => false

/-- The scalar portion of Field.__set__ (field.py lines 57-74): resolve the
value to store (default on a blank None, the value itself when of base type)
and check it against the choices. -/
def Field_set_core (c : FieldCore) (base : PyType) (value : PyVal) : Except PyErr PyVal :=
  match (match value with
    | .none => if c.blank_allowed then Except.ok c.default
               else Except.error PyErr.missingValue
    | v => if pyTypeOf v = base then Except.ok v
           else Except.error PyErr.typeMismatch : Except PyErr PyVal) with
  | .error e => .error e
  | .ok value_to_set =>
    match c.choices with
    | Option.none => .ok value_to_set
    | some cs => if pyMem value_to_set cs then .ok value_to_set
                 else .error PyErr.invalidChoice

/-- Binding a value to a field of an instance: the __set__ of each descriptor
variant.  flag is the instance-level is_reference_lazy_loaded attribute
(threaded because Foreign.__set__ reads and writes it); every other variant
leaves it unchanged.  Float.__set__ first converts an int to float.
DateTime.__set__ calls the scalar __set__ and then caches the stored value's
seven components (the stored value always has datetime type here, so the
component attribute reads succeed; a non-datetime would raise
AttributeError).  Coordinate.__set__ and Foreign.__set__ are their own code
paths, mirrored below. -/
def fieldSet (spec : FieldSpec) (flag : Option Bool) (value : PyVal) :
    Except PyErr (FieldSt × Option Bool) :=
  match spec with
  | .integer c =>
    match Field_set_core c .intT value with
    | .error e => .error e
    | .ok v => .ok (.scalarSt v, flag)
  | .float c =>
    let value := match value with
      | .intV n => PyVal.floatV (n : ℚ)
      | v => v
    match Field_set_core c .floatT value with
    | .error e => .error e
    | .ok v => .ok (.scalarSt v, flag)
  | .string c =>
    match Field_set_core c .strT value with
    | .error e => .error e
    | .ok v => .ok (.scalarSt v, flag)
  | .dateTime c =>
    match Field_set_core c .datetimeT value with
    | .error e => .error e
    | .ok v =>
      match v with
      | .dtV y mo d h mi s us => .ok (.dtSt v y mo d h mi s us, flag)
      | _ => .error PyErr.missingAttribute
  | .coordinate c =>
    match (match value with
      | .none => if c.blank_allowed then Except.ok c.default
                 else Except.error PyErr.missingValue
      | v => if isFloatPair v then Except.ok v
             else Except.error PyErr.typeMismatch : Except PyErr PyVal) with
    | .error e => .error e
    | .ok value_to_set =>
      match value_to_set with
      | .tupV [a, b] =>
        if is_valid_coordinate a = false ∨ is_valid_coordinate b = false then
          .error PyErr.boundsValue
        else
          match c.choices with
          | Option.none => .ok (.coordSt a b, flag)
          | some cs => if pyMem value_to_set cs then .ok (.coordSt a b, flag)
                       else .error PyErr.invalidChoice
      | _ => .error PyErr.indexError
  | .foreign blank ref =>
    match value with
    | .none =>
      if blank = false then .error PyErr.missingValue
      else .ok (.foreignSt .none, flag)
    | .objV tn i =>
      if pyTypeOf (.objV tn i) = .objT ref.name then
        .ok (.foreignSt (.objV tn i), some false)
      else .error PyErr.typeMismatch
    | .intV p =>
      if flag.getD true then .ok (.foreignSt (.intV p), some true)
      else .error PyErr.typeMismatch
    | _ => .error PyErr.typeMismatch

/-- Reading a field of an instance: the __get__ of each descriptor variant.
deref stands for referenced_table_type.get(instance.target_db, pk), the lazy
dereference a Foreign field performs when it holds only a pk; it is a
parameter so that reads that never dereference are independent of the Store.
A Foreign field holding a non-None reference reads the instance-level
is_reference_lazy_loaded attribute without a getattr default, so its absence
raises AttributeError. -/
def fieldGet (spec : FieldSpec) (st : FieldSt) (flag : Option Bool)
    (deref : String → PyVal → Except PyErr PyVal) : Except PyErr PyVal :=
  match spec, st with
  | .integer _, .scalarSt v | .float _, .scalarSt v | .string _, .scalarSt v => .ok v
  | .dateTime _, .dtSt v _ _ _ _ _ _ _ => .ok v
  | .coordinate _, .coordSt a b => .ok (.tupV [a, b])
  | .foreign _ ref, .foreignSt r =>
    match r with
    | .none => .ok .none
    | r =>
      match flag with
      | Option.none => .error PyErr.missingAttribute
      | some false => .ok r
      | some true => deref ref.name r
  | _, _ => .error PyErr.missingAttribute

/-- get_decomposed_values of each descriptor variant (the field's ordered
slot values).  A Foreign field with a non-None reference reads the
instance-level is_reference_lazy_loaded attribute; when the reference is held
eagerly the slot value is the referenced object's pk. -/
def decomposeField (spec : FieldSpec) (st : FieldSt) (flag : Option Bool) :
    Except PyErr (List PyVal) :=
  match spec, st with
  | .integer _, .scalarSt v | .float _, .scalarSt v | .string _, .scalarSt v => .ok [v]
  | .dateTime _, .dtSt _ y mo d h mi s us =>
    .ok [.intV y, .intV mo, .intV d, .intV h, .intV mi, .intV s, .intV us]
  | .coordinate _, .coordSt a b => .ok [a, b]
  | .foreign _ _, .foreignSt r =>
    match r with
    | .none => .ok [.intV 0]
    | r =>
      match flag with
      | Option.none => .error PyErr.missingAttribute
      | some true => .ok [r]
      | some false =>
        match r with
        | .objV _ i => .ok [pkToVal i.pk]
        | _ => .error PyErr.noPkAttribute
  | _, _ => .error PyErr.missingAttribute

/-- Leap year rule of the proleptic Gregorian calendar used by
datetime.datetime. -/
def isLeap (y : Int) : Bool :=
  y % 4 = 0 && (y % 100 ≠ 0 || y % 400 = 0)

/-- Days in a month, as validated by the datetime.datetime constructor. -/
def daysInMonth (y m : Int) : Int :=
  if m = 2 then (if isLeap y then 29 else 28)
  else if m = 4 ∨ m = 6 ∨ m = 9 ∨ m = 11 then 30
  else 31

/-- Argument validity of the datetime.datetime constructor. -/
def dtValid (y mo d h mi s us : Int) : Bool :=
  decide (1 ≤ y ∧ y ≤ 9999 ∧ 1 ≤ mo ∧ mo ≤ 12 ∧ 1 ≤ d ∧ d ≤ daysInMonth y mo ∧
    0 ≤ h ∧ h ≤ 23 ∧ 0 ≤ mi ∧ mi ≤ 59 ∧ 0 ≤ s ∧ s ≤ 59 ∧ 0 ≤ us ∧ us ≤ 999999)

/-- datetime.datetime(year, month, day, hour, minute, second, microsecond):
TypeError on non-integer arguments, ValueError out of range. -/
def mkDatetime (y mo d h mi s us : PyVal) : Except PyErr PyVal :=
  match y, mo, d, h, mi, s, us with
  | .intV y, .intV mo, .intV d, .intV h, .intV mi, .intV s, .intV us =>
    if dtValid y mo d h mi s us then .ok (.dtV y mo d h mi s us)
    else .error PyErr.valueErrorOther
  | _, _, _, _, _, _, _ => .error PyErr.typeErrorOther

/-- get_field_assignable_obj_from_stream of each descriptor variant, over an
explicit forward-only cursor: consume the field's slot values from the front
of the stream and return the field-assignable value with the rest of the
stream.  The base Field (and Foreign) consume one value; DateTime consumes
seven and rebuilds the timestamp; Coordinate consumes two and returns the
pair.  next() on an exhausted stream raises StopIteration. -/
def fieldCompose (spec : FieldSpec) (stream : List PyVal) :
    Except PyErr (PyVal × List PyVal) :=
  match spec with
  | .integer _ | .float _ | .string _ | .foreign _ _ =>
    match stream with
    | [] => .error PyErr.stopIteration
    | v :: rest => .ok (v, rest)
  | .dateTime _ =>
    match stream with
    | y :: mo :: d :: h :: mi :: s :: us :: rest =>
      match mkDatetime y mo d h mi s us with
      | .error e => .error e
      | .ok v => .ok (v, rest)
    | _ => .error PyErr.stopIteration
  | .coordinate _ =>
    match stream with
    | a :: b :: rest => .ok (.tupV [a, b], rest)
    | _ => .error PyErr.stopIteration

/-- The primitive type names used in a schema slot (get_schema_repr_py):
int, float, str, or the referenced table's name for a Foreign field. -/
inductive SlotTy where
  | intS | floatS | strS
  | refS (table : String)
deriving DecidableEq, Repr

/-- get_schema_repr_py of each descriptor variant: the ordered slot names and
primitive types the field occupies, derived from the field's attribute
name. -/
def fieldSchema (name : String) : FieldSpec → List (String × SlotTy)
  | .integer _ => [(name, .intS)]
  | .float _ => [(name, .floatS)]
  | .string _ => [(name, .strS)]
  | .dateTime _ =>
    [(name ++ "_year", .intS), (name ++ "_month", .intS), (name ++ "_day", .intS),
     (name ++ "_hour", .intS), (name ++ "_minute", .intS), (name ++ "_second", .intS),
     (name ++ "_microsecond", .intS)]
  | .coordinate _ => [(name ++ "_latitude", .floatS), (name ++ "_longitude", .floatS)]
  | .foreign _ ref => [(name, .refS ref.name)]

/-- The column-name rule of MetaTable.__init__ (table.py lines 28-29): the
name starts with a letter, is alphanumeric throughout, and is none of the
reserved identifiers.  Python str.isalpha and str.isalnum are approximated on
ASCII (every name in the claims is ASCII); an attribute name is never
empty. -/
def validColumnName (s : String) : Bool :=
  match s.data with
  | [] => false
  | c :: _ =>
    c.isAlpha && s.data.all Char.isAlphanum &&
      !(["pk", "version", "save", "delete"].contains s)

/-- The field-collecting loop of MetaTable.__init__ (table.py lines 26-33):
walk the class namespace in declaration order, validate every attribute that
is a Field instance and collect its name.  Non-field attributes (methods,
plain values) are carried as Lean none and skipped. -/
def collectFieldNames : List (String × Option FieldSpec) → Except PyErr (List String)
  | [] => .ok []
  | (_, Option.none) :: rest => collectFieldNames rest
  | (n, some _) :: rest =>
    if validColumnName n then
      match collectFieldNames rest with
      | .error e => .error e
      | .ok ns => .ok (n :: ns)
    else .error PyErr.configError

/-- MetaTable.__init__ (table.py lines 18-36): reject a table name already in
the process-wide registry, validate and collect the declared field names,
then register the name.  Returns the updated registry and the table's
field_names.  Both failures raise AttributeError, the spec's ConfigError. -/
def MetaTable_init (table_names : List String) (name : String)
    (attrs : List (String × Option FieldSpec)) :
    Except PyErr (List String × List String) :=
  if table_names.contains name then .error PyErr.configError
  else
    match collectFieldNames attrs with
    | .error e => .error e
    | .ok field_names => .ok (name :: table_names, field_names)

/-- The easydb operator constants used by MetaTable.filter's mapping dict. -/
inductive DBOp where
  | EQ | NE | GT | LT | AL
deriving DecidableEq, Repr

/-- The external Store consumed by the core, as pure functions: what each
call returns is arbitrary but fixed.  drop has no modelled return (delete
only records the call). -/
structure StoreModel where
  get : String → Int → List PyVal × Int
  scan : String → DBOp → String → PyVal → List Int
  scanAll : String → List Int
  insert : String → List PyVal → Int × Int
  update : String → Int → List PyVal → Option Int → Int

/-- One Store round trip, as recorded in a call trace. -/
inductive StoreCall where
  | getC (table : String) (pk : Int) : StoreCall
  | scanC (table : String) (op : DBOp) (col : String) (v : PyVal) : StoreCall
  | scanAllC (table : String) : StoreCall
  | insertC (table : String) (vals : List PyVal) : StoreCall
  | updateC (table : String) (pk : Int) (vals : List PyVal) (expected : Option Int) : StoreCall
  | dropC (table : String) (pk : Option Int) : StoreCall

/-- Whether the two-character separator of a filter key occurs in the
character list (Python: "__" in k). -/
def containsUU : List Char → Bool
  | '_' :: '_' :: _ => true
  | _ :: rest => containsUU rest
  | [] => false

/-- Split a character list on the two-character separator, non-overlapping
left to right (Python str.split("__")); acc accumulates the current part in
reverse. -/
def splitUU : List Char → List Char → List (List Char)
  | [], acc => [acc.reverse]
  | '_' :: '_' :: rest, acc => acc.reverse :: splitUU rest []
  | c :: rest, acc => splitUU rest (c :: acc)

/-- The criterion-key parse of MetaTable.filter (table.py lines 80-84): with
no double-underscore the column is the whole key and the operator defaults to
eq; otherwise the key splits into exactly column and operator (three or more
parts make the two-name unpacking raise ValueError). -/
def parseKey (k : String) : Except PyErr (String × String) :=
  if containsUU k.data then
    match (splitUU k.data []).map (fun cs => String.mk cs) with
    | [c, o] => .ok (c, o)
    | _ => .error PyErr.valueErrorOther
  else .ok (k, "eq")

/-- cls.__dict__[col_name] restricted to the declared fields. -/
def lookupField (td : TableDef) (col : String) : Option FieldSpec :=
  td.fields.lookup col

/-- The user-operator to easydb-operator mapping dict of MetaTable.filter;
only called after the operator was validated, so the catch-all arm is dead
code. -/
def mapOp : String → DBOp
  | "ne" => .NE
  | "gt" => .GT
  | "lt" => .LT
  | "eq" => .EQ
  | _ => .AL

/-- list(set(results[0]).intersection(*results)) on a non-empty results list:
the members of the first scan result present in every scan result.  Python's
set conversion deduplicates and loses order; the model keeps the first
result's order (all statements about this value are membership
statements). -/
def listIntersect (r0 : List Int) (results : List (List Int)) : List Int :=
  r0.filter (fun pk => results.all (fun r => r.contains pk))

/-- The body of MetaTable.filter's query translation after the criterion key
has been parsed (table.py lines 85-133): reduce a Table-instance value to its
pk, validate the operator and column, decompose the column and the value,
issue the scans and combine their results.  The datetime string round trip of
lines 101-112 is modelled by its effect: str(value) carries a "." exactly
when the microsecond is nonzero, and only the branch without microseconds
reassigns values to the component 7-tuple. -/
def MetaTable_filter_body (store : StoreModel) (td : TableDef)
    (col_name op : String) (v : PyVal) : Except PyErr (List StoreCall × List Int) :=
  let value : PyVal := match v with
    | .objV _ i => pkToVal i.pk
    | v => v
  let values : List PyVal := match value with
    | .tupV xs => xs
    | v => [v]
  if (["ne", "gt", "lt", "al", "eq"].contains op) = false then
    .error PyErr.unsupportedOperator
  else if op ≠ "al" ∧ (td.fieldNames ++ ["id"]).contains col_name = false then
    .error PyErr.unknownField
  else
    match (if col_name = "id" then Except.ok [col_name]
      else match lookupField td col_name with
        | some spec => Except.ok ((fieldSchema col_name spec).map Prod.fst)
        | Option.none => Except.error PyErr.keyError :
        Except PyErr (List String)) with
    | .error e => .error e
    | .ok decomposed_col_names =>
      let is_date : Bool := match value with
        | .dtV _ _ _ _ _ _ _ => true
        | _ => false
      let values : List PyVal := match value with
        | .dtV y mo d h mi s us =>
          if us = 0 then
            [.intV y, .intV mo, .intV d, .intV h, .intV mi, .intV s, .intV 0]
          else values
        | _ => values
      if op = "al" then
        .ok ([.scanAllC td.name], store.scanAll td.name)
      else
        let probes := decomposed_col_names.zip values
        let results := probes.map (fun p => store.scan td.name (mapOp op) p.1 p.2)
        let calls := probes.map (fun p => StoreCall.scanC td.name (mapOp op) p.1 p.2)
        match (match results with
          | [] => Except.error PyErr.indexError
          | [r] => Except.ok r
          | r0 :: rs => Except.ok (listIntersect r0 (r0 :: rs)) :
            Except PyErr (List Int)) with
        | .error e => .error e
        | .ok result0 =>
          let result := if is_date then
              match results with
              | r0 :: _ => if r0 ≠ [] then r0 else result0
              | [] => result0
            else result0
          .ok (calls, result)

/-- The query-translation part of MetaTable.filter (table.py lines 71-133):
from the single criterion (or none) to the list of Store scans issued and the
resulting pk list.  The hydration of the pks into instances (lines 137-143,
one get per pk) is downstream of this value. -/
def MetaTable_filter_scan (store : StoreModel) (td : TableDef)
    (kwarg : Option (String × PyVal)) : Except PyErr (List StoreCall × List Int) :=
  match kwarg with
  | Option.none => .ok ([.scanAllC td.name], store.scanAll td.name)
  | some (k, v) =>
    match parseKey k with
    | .error e => .error e
    | .ok (col_name, op) => MetaTable_filter_body store td col_name op v

/-- The field-binding loop of Table.__init__ (table.py lines 163-165): bind
each declared field in order, threading the instance-level lazy flag; a field
not supplied is bound to None (kwargs.get default). -/
def bindFields (flag : Option Bool) :
    List (String × FieldSpec) → List PyVal → Except PyErr (List FieldSt × Option Bool)
  | [], _ => .ok ([], flag)
  | (_, spec) :: specs, vals =>
    match fieldSet spec flag (vals.headD .none) with
    | .error e => .error e
    | .ok (st, flag') =>
      match bindFields flag' specs vals.tail with
      | .error e => .error e
      | .ok (sts, flag'') => .ok (st :: sts, flag'')

/-- Table.__init__ (table.py lines 158-165): a fresh Transient instance with
the given per-field constructor values (positionally aligned with the
declared fields; PyVal.none stands for an absent keyword). -/
def Table_init (td : TableDef) (vals : List PyVal) : Except PyErr Inst :=
  match bindFields Option.none td.fields vals with
  | .error e => .error e
  | .ok (sts, flag) => .ok (.mk Option.none Option.none flag sts)

/-- The composition loop of MetaTable.get (table.py lines 54-58): compose one
field-assignable value per declared field from the shared forward-only
cursor, in declaration order. -/
def composeRow :
    List (String × FieldSpec) → List PyVal → Except PyErr (List PyVal × List PyVal)
  | [], stream => .ok ([], stream)
  | (_, spec) :: specs, stream =>
    match fieldCompose spec stream with
    | .error e => .error e
    | .ok (v, rest) =>
      match composeRow specs rest with
      | .error e => .error e
      | .ok (vs, rest') => .ok (v :: vs, rest')

/-- MetaTable.get (table.py lines 48-65): fetch the flat value row and its
version from the Store, compose every field from one shared cursor, build the
instance through Table.__init__, then set pk and version. -/
def MetaTable_get (store : StoreModel) (td : TableDef) (pk : Int) :
    Except PyErr (Inst × List StoreCall) :=
  let fetched := store.get td.name pk
  match composeRow td.fields fetched.1 with
  | .error e => .error e
  | .ok (vs, _) =>
    match Table_init td vs with
    | .error e => .error e
    | .ok i => .ok (.mk (some pk) (some fetched.2) i.lazyLoaded i.fields, [.getC td.name pk])

/-- The Foreign special case at the top of Table.save's field loop (table.py
lines 173-178) for one field: foreign_object = getattr(self, field_name,
self.__class__) runs Foreign.__get__ (returning the stored None, the eagerly
held object, or the lazily fetched row; getattr swallows an AttributeError
from the descriptor and yields the class, whose missing pk attribute then
raises AttributeError anyway); if foreign_object.pk is None the nested object
is saved first through saveNested, which mutates the attribute's object in
place.  Non-Foreign fields pass through unchanged.  Returns the field's
post-cascade state and the Store calls made. -/
def processForeign (saveNested : TableDef → Inst → Except PyErr (Inst × List StoreCall))
    (store : StoreModel) (flag : Option Bool) (spec : FieldSpec) (st : FieldSt) :
    Except PyErr (FieldSt × List StoreCall) :=
  match spec, st with
  | .foreign _ ref, .foreignSt refv =>
    match (match refv with
      | .none => Except.ok (PyVal.none, ([] : List StoreCall))
      | r =>
        match flag with
        | Option.none => Except.error PyErr.noPkAttribute
        | some false => Except.ok (r, ([] : List StoreCall))
        | some true =>
          match r with
          | .intV p =>
            match MetaTable_get store ref p with
            | .error PyErr.missingAttribute => Except.error PyErr.noPkAttribute
            | .error PyErr.missingValue => Except.error PyErr.noPkAttribute
            | .error e => Except.error e
            | .ok (fi, cs) => Except.ok (PyVal.objV ref.name fi, cs)
          | _ => Except.error PyErr.typeErrorOther :
        Except PyErr (PyVal × List StoreCall)) with
    | .error e => .error e
    | .ok (fo, gcalls) =>
      match fo with
      | .objV tn fi =>
        if fi.pk = Option.none then
          match saveNested ref fi with
          | .error e => .error e
          | .ok (fi', scalls) =>
            match refv with
            | .objV _ _ => .ok (.foreignSt (.objV tn fi'), gcalls ++ scalls)
            | _ => .ok (.foreignSt refv, gcalls ++ scalls)
        else .ok (.foreignSt refv, gcalls)
      | _ => .error PyErr.noPkAttribute
  | _, st => .ok (st, [])

/-- The field loop of Table.save (table.py lines 170-185): for each declared
field in order, run the Foreign cascade special case and then append the
field's decomposed values to the flat list.  Returns the post-cascade field
states, the flat value list and the Store calls made.  saveNested is the
recursive save on a nested object, passed as a function so the loop itself is
structurally recursive. -/
def processFields (saveNested : TableDef → Inst → Except PyErr (Inst × List StoreCall))
    (store : StoreModel) (flag : Option Bool) :
    List (String × FieldSpec) → List FieldSt →
    Except PyErr (List FieldSt × List PyVal × List StoreCall)
  | [], _ => .ok ([], [], [])
  | _ :: _, [] => .error PyErr.missingAttribute
  | (_, spec) :: specs, st :: sts =>
    match processForeign saveNested store flag spec st with
    | .error e => .error e
    | .ok (st', calls₁) =>
      match decomposeField spec st' flag with
      | .error e => .error e
      | .ok ds =>
        match processFields saveNested store flag specs sts with
        | .error e => .error e
        | .ok (sts', vs, calls₂) => .ok (st' :: sts', ds ++ vs, calls₁ ++ calls₂)

/-- Table.save (table.py lines 169-195): build the flat value list over all
fields in declaration order (cascading into unsaved eagerly held Foreign
objects first), then insert when Transient (adopting the returned pk and
version), update with the current version as expected version when Persisted
and atomic, and update without a version when Persisted and not atomic
(adopting the returned version in both cases).  fuel bounds the cascade depth,
standing for Python's recursion limit (the source has no cycle detection);
every theorem below quantifies over fuel.  A nested save() call uses the
default atomic=True. -/
def Table_save : Nat → StoreModel → TableDef → Inst → Bool →
    Except PyErr (Inst × List StoreCall)
  | 0, _, _, _, _ => .error PyErr.recursionError
  | fuel + 1, store, td, inst, atomic =>
    match processFields (fun rtd ri => Table_save fuel store rtd ri true)
        store inst.lazyLoaded td.fields inst.fields with
    | .error e => .error e
    | .ok (sts', vals, calls) =>
      match inst.pk with
      | Option.none =>
        let r := store.insert td.name vals
        .ok (.mk (some r.1) (some r.2) inst.lazyLoaded sts',
             calls ++ [.insertC td.name vals])
      | some p =>
        if atomic then
          let v := store.update td.name p vals inst.version
          .ok (.mk (some p) (some v) inst.lazyLoaded sts',
               calls ++ [.updateC td.name p vals inst.version])
        else
          let v := store.update td.name p vals Option.none
          .ok (.mk (some p) (some v) inst.lazyLoaded sts',
               calls ++ [.updateC td.name p vals Option.none])

/-- Table.delete (table.py lines 198-205): request the Store to drop the row,
then clear pk and version.  Field states and the lazy flag are untouched. -/
def Table_delete (td : TableDef) (inst : Inst) : Inst × List StoreCall :=
  (.mk Option.none Option.none inst.lazyLoaded inst.fields, [.dropC td.name inst.pk])

/-- The flat decomposition of a row's field states in declaration order (the
value list Table.save builds, recomputed from the final states). -/
def rowDecompose (flag : Option Bool) :
    List (String × FieldSpec) → List FieldSt → Except PyErr (List PyVal)
  | [], _ => .ok []
  | _ :: _, [] => .error PyErr.missingAttribute
  | (_, spec) :: specs, st :: sts =>
    match decomposeField spec st flag with
    | .error e => .error e
    | .ok ds =>
      match rowDecompose flag specs sts with
      | .error e => .error e
      | .ok vs => .ok (ds ++ vs)

/-- Helper: the value list Table.save's field loop builds equals the flat
decomposition of the post-cascade field states (later cascades never touch an
earlier field's state, and decomposition is effect-free). -/
theorem processFields_rowDecompose
    (sn : TableDef → Inst → Except PyErr (Inst × List StoreCall))
    (store : StoreModel) (flag : Option Bool) :
    ∀ (specs : List (String × FieldSpec)) (sts sts' : List FieldSt)
      (vals : List PyVal) (calls : List StoreCall),
      processFields sn store flag specs sts = .ok (sts', vals, calls) →
      rowDecompose flag specs sts' = .ok vals := by
  intro specs
  induction specs with
  | nil =>
    intro sts sts' vals calls h
    simp only [processFields, Except.ok.injEq, Prod.mk.injEq] at h
    obtain ⟨h1, h2, h3⟩ := h
    subst h1; subst h2
    rfl
  | cons p specs ih =>
    intro sts sts' vals calls h
    obtain ⟨n, spec⟩ := p
    cases sts with
    | nil => simp [processFields] at h
    | cons st sts =>
      simp only [processFields] at h
      split at h
      · simp at h
      · rename_i r st' calls₁ hpf
        split at h
        · simp at h
        · rename_i r2 ds hdec
          split at h
          · simp at h
          · rename_i r3 sts2' vs calls₂ hrec
            simp only [Except.ok.injEq, Prod.mk.injEq] at h
            obtain ⟨h1, h2, h3⟩ := h
            subst h1; subst h2
            simp only [rowDecompose, hdec]
            rw [ih sts sts2' vs calls₂ hrec]

/-- Helper: every successful Table.save dispatches on the persistence state
after building the flat value list: a Transient row is inserted and adopts
the returned pk and version; a Persisted row is updated (with the current
version as expected version exactly when atomic) and adopts the returned
version.  The flat value list is the decomposition of the post-cascade field
states in declaration order. -/
theorem Table_save_spec (fuel : Nat) (store : StoreModel) (td : TableDef)
    (inst : Inst) (atomic : Bool) (inst' : Inst) (tr : List StoreCall)
    (h : Table_save fuel store td inst atomic = .ok (inst', tr)) :
    ∃ vals calls,
      rowDecompose inst.lazyLoaded td.fields inst'.fields = .ok vals ∧
      inst'.lazyLoaded = inst.lazyLoaded ∧
      (match inst.pk with
       | Option.none =>
          tr = calls ++ [.insertC td.name vals] ∧
          inst'.pk = some (store.insert td.name vals).1 ∧
          inst'.version = some (store.insert td.name vals).2
       | some p =>
          inst'.pk = some p ∧
          (if atomic then
            tr = calls ++ [.updateC td.name p vals inst.version] ∧
            inst'.version = some (store.update td.name p vals inst.version)
          else
            tr = calls ++ [.updateC td.name p vals Option.none] ∧
            inst'.version = some (store.update td.name p vals Option.none))) := by
  cases fuel with
  | zero => simp [Table_save] at h
  | succ f =>
    simp only [Table_save] at h
    split at h
    · simp at h
    · rename_i r sts' vals calls hpf
      have hrd := processFields_rowDecompose _ store inst.lazyLoaded td.fields
        inst.fields sts' vals calls hpf
      refine ⟨vals, calls, ?_, ?_, ?_⟩
      · cases hpk : inst.pk <;> rw [hpk] at h
        · simp only [Except.ok.injEq, Prod.mk.injEq] at h
          obtain ⟨h1, h2⟩ := h
          rw [← h1]
          simpa [Inst.fields] using hrd
        · rename_i p
          cases atomic <;> simp only [Bool.false_eq_true, if_false, if_true,
            Except.ok.injEq, Prod.mk.injEq, reduceIte] at h <;>
            obtain ⟨h1, h2⟩ := h <;> rw [← h1] <;> simpa [Inst.fields] using hrd
      · cases hpk : inst.pk <;> rw [hpk] at h
        · simp only [Except.ok.injEq, Prod.mk.injEq] at h
          obtain ⟨h1, h2⟩ := h
          rw [← h1]; simp [Inst.lazyLoaded]
        · rename_i p
          cases atomic <;> simp only [Bool.false_eq_true, if_false, if_true,
            Except.ok.injEq, Prod.mk.injEq, reduceIte] at h <;>
            obtain ⟨h1, h2⟩ := h <;> rw [← h1] <;> simp [Inst.lazyLoaded]
      · cases hpk : inst.pk <;> rw [hpk] at h
        · simp only [Except.ok.injEq, Prod.mk.injEq] at h
          obtain ⟨h1, h2⟩ := h
          rw [← h1, ← h2]
          exact ⟨rfl, rfl, rfl⟩
        · rename_i p
          cases atomic
          · simp only [Bool.false_eq_true, if_false, reduceIte,
              Except.ok.injEq, Prod.mk.injEq] at h
            obtain ⟨h1, h2⟩ := h
            rw [← h1, ← h2]
            exact ⟨rfl, by simp [Inst.pk, Inst.version]⟩
          · simp only [if_true, reduceIte, Except.ok.injEq, Prod.mk.injEq] at h
            obtain ⟨h1, h2⟩ := h
            rw [← h1, ← h2]
            exact ⟨rfl, by simp [Inst.pk, Inst.version]⟩

/-- Claim C3 (confirmed): for every Table instance, save decomposes all
fields in field_names order into one flat value list (the decomposition of
the post-cascade states) and then: if Transient (pk is None) it calls
store.insert and adopts the returned pk and version pair; if Persisted and
atomic it calls store.update passing the current version as the expected
version and adopts the returned new version; if Persisted and not atomic it
calls store.update without a version argument and adopts the returned version
unconditionally. -/
theorem claim_C3_theorem (fuel : Nat) (store : StoreModel) (td : TableDef)
    (inst : Inst) (atomic : Bool) (inst' : Inst) (tr : List StoreCall)
    (h : Table_save fuel store td inst atomic = .ok (inst', tr)) :
    ∃ vals calls,
      rowDecompose inst.lazyLoaded td.fields inst'.fields = .ok vals ∧
      inst'.lazyLoaded = inst.lazyLoaded ∧
      (match inst.pk with
       | Option.none =>
          tr = calls ++ [.insertC td.name vals] ∧
          inst'.pk = some (store.insert td.name vals).1 ∧
          inst'.version = some (store.insert td.name vals).2
       | some p =>
          inst'.pk = some p ∧
          (if atomic then
            tr = calls ++ [.updateC td.name p vals inst.version] ∧
            inst'.version = some (store.update td.name p vals inst.version)
          else
            tr = calls ++ [.updateC td.name p vals Option.none] ∧
            inst'.version = some (store.update td.name p vals Option.none))) :=
  Table_save_spec fuel store td inst atomic inst' tr h

/-- An Integer field with no default and no choices, for the concrete
instantiations below. -/
def exIntSpec : FieldSpec := .integer ⟨false, .intV 0, Option.none⟩

/-- A one-column integer table. -/
def exTdChild : TableDef := .mk "Child" [("a", exIntSpec)]

/-- A table holding a mandatory reference to exTdChild and an integer. -/
def exTdParent : TableDef := .mk "Parent" [("c", .foreign false exTdChild), ("b", exIntSpec)]

/-- A Transient exTdChild row with a = 7. -/
def exChildInst : Inst := .mk Option.none Option.none Option.none [.scalarSt (.intV 7)]

/-- A Transient exTdParent row eagerly holding the unsaved exChildInst. -/
def exParentInst : Inst :=
  .mk Option.none Option.none (some false)
    [.foreignSt (.objV "Child" exChildInst), .scalarSt (.intV 9)]

/-- A concrete Store: inserts into Child are assigned pk 11, other inserts
pk 22, all at version 1; updates return version 3. -/
def exStore : StoreModel where
  get := fun _ _ => ([], 0)
  scan := fun _ _ _ _ => []
  scanAll := fun _ => [1, 2]
  insert := fun t _ => if t = "Child" then (11, 1) else (22, 1)
  update := fun _ _ _ _ => 3

theorem claim_C3_witness :
    Table_save 1 exStore exTdChild exChildInst true =
      .ok (.mk (some 11) (some 1) Option.none [.scalarSt (.intV 7)],
           [.insertC "Child" [.intV 7]]) ∧
    ∃ vals calls,
      rowDecompose Option.none exTdChild.fields [FieldSt.scalarSt (.intV 7)] = .ok vals ∧
      (Option.none : Option Bool) = Option.none ∧
      ([StoreCall.insertC "Child" [.intV 7]] : List StoreCall) =
        calls ++ [.insertC "Child" vals] ∧
      (some 11 : Option Int) = some (exStore.insert "Child" vals).1 ∧
      (some 1 : Option Int) = some (exStore.insert "Child" vals).2 :=
  ⟨rfl,
   claim_C3_theorem 1 exStore exTdChild exChildInst true
     (.mk (some 11) (some 1) Option.none [.scalarSt (.intV 7)])
     [.insertC "Child" [.intV 7]] rfl⟩

/-- Claim C9 (confirmed): for every Persisted instance, delete issues
store.drop with the table name and pk, clears pk and version, and leaves
every field's in-memory state (and the lazy flag) unchanged. -/
theorem claim_C9_theorem (td : TableDef) (inst : Inst) (p : Int)
    (h : inst.pk = some p) :
    (Table_delete td inst).1.pk = Option.none ∧
    (Table_delete td inst).1.version = Option.none ∧
    (Table_delete td inst).1.fields = inst.fields ∧
    (Table_delete td inst).1.lazyLoaded = inst.lazyLoaded ∧
    (Table_delete td inst).2 = [.dropC td.name (some p)] := by
  cases inst with
  | mk pk0 ver0 lz0 fs0 =>
    simp only [Inst.pk] at h
    subst h
    simp [Table_delete, Inst.pk, Inst.version, Inst.fields, Inst.lazyLoaded]

theorem claim_C9_witness :
    (Table_delete exTdChild (.mk (some 3) (some 4) Option.none [.scalarSt (.intV 7)])).1.pk
        = Option.none ∧
    (Table_delete exTdChild (.mk (some 3) (some 4) Option.none [.scalarSt (.intV 7)])).1.version
        = Option.none ∧
    (Table_delete exTdChild (.mk (some 3) (some 4) Option.none [.scalarSt (.intV 7)])).1.fields
        = (Inst.mk (some 3) (some 4) Option.none [.scalarSt (.intV 7)]).fields ∧
    (Table_delete exTdChild (.mk (some 3) (some 4) Option.none [.scalarSt (.intV 7)])).1.lazyLoaded
        = (Inst.mk (some 3) (some 4) Option.none [.scalarSt (.intV 7)]).lazyLoaded ∧
    (Table_delete exTdChild (.mk (some 3) (some 4) Option.none [.scalarSt (.intV 7)])).2
        = [.dropC exTdChild.name (some 3)] :=
  claim_C9_theorem exTdChild (.mk (some 3) (some 4) Option.none [.scalarSt (.intV 7)]) 3 rfl

/-- Helper: the field-collecting loop of MetaTable.__init__ fails with the
declaration-time error whenever some declared Field attribute has an invalid
column name. -/
theorem collectFieldNames_invalid :
    ∀ (attrs : List (String × Option FieldSpec)) (n : String) (spec : FieldSpec),
      (n, some spec) ∈ attrs → validColumnName n = false →
      collectFieldNames attrs = .error PyErr.configError := by
  intro attrs
  induction attrs with
  | nil => intro n spec h _; simp at h
  | cons a rest ih =>
    intro n spec hmem hval
    obtain ⟨m, os⟩ := a
    cases os with
    | none =>
      simp only [collectFieldNames]
      rcases List.mem_cons.mp hmem with heq | hrest
      · simp at heq
      · exact ih n spec hrest hval
    | some s =>
      simp only [collectFieldNames]
      rcases List.mem_cons.mp hmem with heq | hrest
      · obtain ⟨h1, _⟩ := Prod.mk.injEq .. ▸ heq
        rw [if_neg (by rw [← h1]; simp [hval])]
      · by_cases hv : validColumnName m = true
        · rw [if_pos hv, ih n spec hrest hval]
        · rw [if_neg hv]

/-- Claim C7 (confirmed): declaring a table under an already-registered name
always fails with the declaration-time ConfigError, and declaring a table
with any Field attribute whose name is invalid fails likewise; a name is
invalid exactly when it is one of the reserved identifiers pk, version, save
and delete, or does not start with a letter, or is not alphanumeric. -/
theorem claim_C7_theorem :
    (∀ (reg : List String) (name : String) (attrs : List (String × Option FieldSpec)),
      reg.contains name = true →
      MetaTable_init reg name attrs = .error PyErr.configError) ∧
    (∀ (reg : List String) (name : String) (attrs : List (String × Option FieldSpec))
        (n : String) (spec : FieldSpec),
      (n, some spec) ∈ attrs → validColumnName n = false →
      MetaTable_init reg name attrs = .error PyErr.configError) ∧
    (∀ n : String, (["pk", "version", "save", "delete"].contains n) = true →
      validColumnName n = false) ∧
    (∀ (n : String) (c : Char) (cs : List Char), n.data = c :: cs →
      c.isAlpha = false → validColumnName n = false) ∧
    (∀ n : String, n.data.all Char.isAlphanum = false → validColumnName n = false) := by
  refine ⟨?_, ?_, ?_, ?_, ?_⟩
  · intro reg name attrs h
    unfold MetaTable_init
    rw [if_pos h]
  · intro reg name attrs n spec hmem hval
    unfold MetaTable_init
    by_cases hdup : reg.contains name = true
    · rw [if_pos hdup]
    · rw [if_neg hdup, collectFieldNames_invalid attrs n spec hmem hval]
  · intro n h
    have hn : n = "pk" ∨ n = "version" ∨ n = "save" ∨ n = "delete" := by
      simpa using h
    rcases hn with rfl | rfl | rfl | rfl <;> decide
  · intro n c cs hd h
    unfold validColumnName
    rw [hd]
    simp [h]
  · intro n h
    unfold validColumnName
    cases hd : n.data with
    | nil => rfl
    | cons c cs => rw [hd] at h; simp [h]

theorem claim_C7_witness :
    (["Child"].contains "Child") = true ∧
    MetaTable_init ["Child"] "Child" [] = .error PyErr.configError ∧
    ("pk", some exIntSpec) ∈ [("pk", some exIntSpec)] ∧
    validColumnName "pk" = false ∧
    MetaTable_init [] "T" [("pk", some exIntSpec)] = .error PyErr.configError :=
  ⟨by decide, claim_C7_theorem.1 ["Child"] "Child" [] (by decide),
   by simp, claim_C7_theorem.2.2.1 "pk" (by decide),
   claim_C7_theorem.2.1 [] "T" [("pk", some exIntSpec)] "pk" exIntSpec (by simp)
     (claim_C7_theorem.2.2.1 "pk" (by decide))⟩

/-- Helper: Table.save's field loop can never succeed when some Foreign field
stores None: Foreign.__get__ returns None for it and the save loop's
foreign_object.pk access raises AttributeError. -/
theorem processFields_none_foreign
    (sn : TableDef → Inst → Except PyErr (Inst × List StoreCall))
    (store : StoreModel) (flag : Option Bool) :
    ∀ (specs1 : List (String × FieldSpec)) (n : String) (b : Bool) (ref : TableDef)
      (specs2 : List (String × FieldSpec)) (sts1 sts2 : List FieldSt)
      (out : List FieldSt × List PyVal × List StoreCall),
      specs1.length = sts1.length →
      processFields sn store flag (specs1 ++ (n, .foreign b ref) :: specs2)
        (sts1 ++ .foreignSt PyVal.none :: sts2) = .ok out → False := by
  intro specs1
  induction specs1 with
  | nil =>
    intro n b ref specs2 sts1 sts2 out hlen h
    have hs : sts1 = [] := by
      cases sts1 with
      | nil => rfl
      | cons a l => simp at hlen
    subst hs
    simp [processFields, processForeign] at h
  | cons p specs1 ih =>
    intro n b ref specs2 sts1 sts2 out hlen h
    cases sts1 with
    | nil => simp at hlen
    | cons st sts1 =>
      obtain ⟨m, spec⟩ := p
      simp only [List.cons_append, processFields] at h
      split at h
      · simp at h
      · split at h
        · simp at h
        · split at h
          · simp at h
          · rename_i r3 sts2' vs calls₂ hrec
            exact ih n b ref specs2 sts1 sts2 _ (by simpa using hlen) hrec

/-- Claim C10 (confirmed): a Table instance whose blank-allowed Foreign field
was left unset (bound to None) can never be saved: save raises an uncaught
exception (the attribute access foreign_object.pk on the absent referenced
object) instead of inserting or updating the row with the 0 blank sentinel in
that slot. -/
theorem claim_C10_theorem (fuel : Nat) (store : StoreModel) (td : TableDef)
    (inst : Inst) (atomic : Bool)
    (specs1 specs2 : List (String × FieldSpec)) (n : String) (ref : TableDef)
    (sts1 sts2 : List FieldSt)
    (hfields : td.fields = specs1 ++ (n, .foreign true ref) :: specs2)
    (hsts : inst.fields = sts1 ++ .foreignSt PyVal.none :: sts2)
    (hlen : specs1.length = sts1.length) :
    ∃ e, Table_save fuel store td inst atomic = .error e := by
  cases fuel with
  | zero => exact ⟨.recursionError, rfl⟩
  | succ f =>
    cases hp : processFields (fun rtd ri => Table_save f store rtd ri true) store
        inst.lazyLoaded td.fields inst.fields with
    | error e =>
      refine ⟨e, ?_⟩
      simp only [Table_save, hp]
    | ok out =>
      rw [hfields, hsts] at hp
      exact absurd hp (fun hc => processFields_none_foreign _ store inst.lazyLoaded
        specs1 n true ref specs2 sts1 sts2 out hlen hc)

/-- A table holding only a blank-allowed reference to exTdChild. -/
def exTdParentB : TableDef := .mk "ParentB" [("c", .foreign true exTdChild)]

/-- A Transient exTdParentB row whose Foreign field was bound to None. -/
def exParentBInst : Inst := .mk Option.none Option.none Option.none [.foreignSt .none]

theorem claim_C10_witness :
    Table_save 2 exStore exTdParentB exParentBInst true = .error PyErr.noPkAttribute ∧
    (∃ e, Table_save 2 exStore exTdParentB exParentBInst true = .error e) :=
  ⟨rfl, claim_C10_theorem 2 exStore exTdParentB exParentBInst true
    [] [] "c" exTdChild [] [] rfl rfl rfl⟩

/-- Helper: when the field loop of Table.save runs over a row whose Foreign
field eagerly holds a not-yet-persisted object (the instance lazy flag is
False, as every eager assignment sets it), the loop saves that nested object
through saveNested and the flat value list carries the nested object's
post-save pk at exactly that field's slot (after the decomposition of the
preceding fields). -/
theorem processFields_foreign_cascade
    (sn : TableDef → Inst → Except PyErr (Inst × List StoreCall))
    (store : StoreModel) :
    ∀ (specs1 : List (String × FieldSpec)) (n : String) (b : Bool) (ref : TableDef)
      (specs2 : List (String × FieldSpec)) (sts1 sts2 : List FieldSt)
      (tn : String) (nested : Inst)
      (out : List FieldSt × List PyVal × List StoreCall),
      specs1.length = sts1.length →
      nested.pk = Option.none →
      processFields sn store (some false) (specs1 ++ (n, .foreign b ref) :: specs2)
        (sts1 ++ .foreignSt (.objV tn nested) :: sts2) = .ok out →
      ∃ sts1' vals1 calls1 nested' ncalls sts2' vals2 calls2,
        sn ref nested = .ok (nested', ncalls) ∧
        out.1 = sts1' ++ .foreignSt (.objV tn nested') :: sts2' ∧
        out.2.1 = vals1 ++ pkToVal nested'.pk :: vals2 ∧
        out.2.2 = calls1 ++ (ncalls ++ calls2) ∧
        rowDecompose (some false) specs1 sts1' = .ok vals1 ∧
        sts1'.length = sts1.length := by
  intro specs1
  induction specs1 with
  | nil =>
    intro n b ref specs2 sts1 sts2 tn nested out hlen hpk h
    have hs : sts1 = [] := by
      cases sts1 with
      | nil => rfl
      | cons a l => simp at hlen
    subst hs
    simp only [List.nil_append, processFields, processForeign, hpk, if_pos] at h
    cases hsn : sn ref nested with
    | error e => rw [hsn] at h; simp at h
    | ok r =>
      obtain ⟨nested', ncalls⟩ := r
      rw [hsn] at h
      simp only [decomposeField, List.nil_append] at h
      cases hrec : processFields sn store (some false) specs2 sts2 with
      | error e => rw [hrec] at h; simp at h
      | ok out2 =>
        obtain ⟨sts2', vs2, calls2⟩ := out2
        rw [hrec] at h
        simp only [Except.ok.injEq] at h
        refine ⟨[], [], [], nested', ncalls, sts2', vs2, calls2, rfl, ?_, ?_, ?_, rfl, rfl⟩
        · rw [← h]; dsimp only; simp
        · rw [← h]; dsimp only; simp
        · rw [← h]; dsimp only; simp
  | cons p specs1 ih =>
    intro n b ref specs2 sts1 sts2 tn nested out hlen hpk h
    cases sts1 with
    | nil => simp at hlen
    | cons st sts1 =>
      obtain ⟨m, spec⟩ := p
      simp only [List.cons_append, processFields] at h
      split at h
      · simp at h
      · rename_i r st' calls₁ hpf
        split at h
        · simp at h
        · rename_i r2 ds hdec
          split at h
          · simp at h
          · rename_i r3 stsr vsr callsr hrec
            obtain ⟨sts1', vals1, calls1, nested', ncalls, sts2', vals2, calls2,
              hsn, ho1, ho2, ho3, hrd, hl⟩ :=
              ih n b ref specs2 sts1 sts2 tn nested (stsr, vsr, callsr)
                (by simpa using hlen) hpk hrec
            dsimp only at ho1 ho2 ho3
            simp only [Except.ok.injEq] at h
            refine ⟨st' :: sts1', ds ++ vals1, calls₁ ++ calls1, nested', ncalls,
              sts2', vals2, calls2, hsn, ?_, ?_, ?_, ?_, ?_⟩
            · rw [← h]; dsimp only; simp only [List.cons_append]
              rw [ho1]
            · rw [← h]; dsimp only; simp only [List.append_assoc]
              rw [ho2]
            · rw [← h]; dsimp only; simp only [List.append_assoc]
              rw [ho3]
            · simp only [rowDecompose, hdec, hrd]
            · simpa using hl

/-- Claim C8 (confirmed): saving a Transient row that eagerly holds a
not-yet-persisted nested object in a Foreign field persists the nested row
first (its insert appears in the trace before the parent's insert), and the
value written in the parent's flat list at that Foreign slot is the pk the
Store assigned to the nested row — never the unset sentinel 0, as long as the
Store never assigns pk 0. -/
theorem claim_C8_theorem (fuel : Nat) (store : StoreModel) (td : TableDef) (inst : Inst)
    (specs1 specs2 : List (String × FieldSpec)) (n : String) (b : Bool) (ref : TableDef)
    (sts1 sts2 : List FieldSt) (tn : String) (nested : Inst)
    (inst' : Inst) (tr : List StoreCall)
    (hfields : td.fields = specs1 ++ (n, .foreign b ref) :: specs2)
    (hsts : inst.fields = sts1 ++ .foreignSt (.objV tn nested) :: sts2)
    (hlen : specs1.length = sts1.length)
    (hflag : inst.lazyLoaded = some false)
    (htrans : inst.pk = Option.none)
    (hnpk : nested.pk = Option.none)
    (hpos : ∀ t vs, (store.insert t vs).1 ≠ 0)
    (hok : Table_save fuel store td inst true = .ok (inst', tr)) :
    ∃ (p' : Int) (nvals vals1 vals2 : List PyVal) (calls : List StoreCall)
      (nested' : Inst) (sts1' sts2' : List FieldSt),
      p' = (store.insert ref.name nvals).1 ∧
      p' ≠ 0 ∧
      nested'.pk = some p' ∧
      inst'.fields = sts1' ++ .foreignSt (.objV tn nested') :: sts2' ∧
      sts1'.length = sts1.length ∧
      rowDecompose (some false) specs1 sts1' = .ok vals1 ∧
      tr = calls ++ [.insertC td.name (vals1 ++ .intV p' :: vals2)] ∧
      .insertC ref.name nvals ∈ calls := by
  cases fuel with
  | zero => simp [Table_save] at hok
  | succ f =>
    simp only [Table_save] at hok
    split at hok
    · simp at hok
    · rename_i r sts' vals calls0 hpf
      rw [htrans] at hok
      simp only [Except.ok.injEq, Prod.mk.injEq] at hok
      obtain ⟨h1, h2⟩ := hok
      rw [hflag, hfields, hsts] at hpf
      obtain ⟨sts1', vals1, calls1, nested', ncalls, sts2', vals2, calls2,
        hsn, ho1, ho2, ho3, hrd, hl⟩ :=
        processFields_foreign_cascade _ store specs1 n b ref specs2 sts1 sts2 tn nested
          (sts', vals, calls0) hlen hnpk hpf
      dsimp only at ho1 ho2 ho3
      obtain ⟨nvals, ncalls0, hnrd, hnlz, hndisp⟩ :=
        Table_save_spec f store ref nested true nested' ncalls hsn
      rw [hnpk] at hndisp
      obtain ⟨hn1, hn2, hn3⟩ := hndisp
      rw [hn2] at ho2
      refine ⟨(store.insert ref.name nvals).1, nvals, vals1, vals2, calls0,
        nested', sts1', sts2', rfl, hpos ref.name nvals, hn2, ?_, ?_, hrd, ?_, ?_⟩
      · rw [← h1]
        dsimp only [Inst.fields]
        exact ho1
      · rw [hl]
      · rw [← h2, ho2]
        rfl
      · rw [ho3, hn1]
        simp

theorem claim_C8_witness :
    Table_save 2 exStore exTdParent exParentInst true =
      .ok (.mk (some 22) (some 1) (some false)
            [.foreignSt (.objV "Child"
               (.mk (some 11) (some 1) Option.none [.scalarSt (.intV 7)])),
             .scalarSt (.intV 9)],
           [.insertC "Child" [.intV 7], .insertC "Parent" [.intV 11, .intV 9]]) ∧
    (∃ (p' : Int) (nvals vals1 vals2 : List PyVal) (calls : List StoreCall)
      (nested' : Inst) (sts1' sts2' : List FieldSt),
      p' = (exStore.insert exTdChild.name nvals).1 ∧
      p' ≠ 0 ∧
      nested'.pk = some p' ∧
      (Inst.mk (some 22) (some 1) (some false)
         [.foreignSt (.objV "Child"
            (.mk (some 11) (some 1) Option.none [.scalarSt (.intV 7)])),
          .scalarSt (.intV 9)]).fields =
        sts1' ++ .foreignSt (.objV "Child" nested') :: sts2' ∧
      sts1'.length = ([] : List FieldSt).length ∧
      rowDecompose (some false) [] sts1' = .ok vals1 ∧
      [StoreCall.insertC "Child" [.intV 7], .insertC "Parent" [.intV 11, .intV 9]] =
        calls ++ [.insertC exTdParent.name (vals1 ++ .intV p' :: vals2)] ∧
      .insertC exTdChild.name nvals ∈ calls) :=
  ⟨rfl,
   claim_C8_theorem 2 exStore exTdParent exParentInst
     [] [("b", exIntSpec)] "c" false exTdChild
     [] [.scalarSt (.intV 9)] "Child" exChildInst
     (.mk (some 22) (some 1) (some false)
       [.foreignSt (.objV "Child"
          (.mk (some 11) (some 1) Option.none [.scalarSt (.intV 7)])),
        .scalarSt (.intV 9)])
     [.insertC "Child" [.intV 7], .insertC "Parent" [.intV 11, .intV 9]]
     rfl rfl rfl rfl rfl rfl
     (by
       intro t vs
       show (if t = "Child" then ((11 : Int), (1 : Int)) else (22, 1)).1 ≠ 0
       split <;> decide)
     rfl⟩

/-- Helper: binding a non-None value through the scalar __set__ core stores
the value itself (it passed the base-type check and any choices check). -/
theorem Field_set_core_value (c : FieldCore) (base : PyType) (x v : PyVal)
    (hx : x ≠ .none) (h : Field_set_core c base x = .ok v) :
    v = x ∧ pyTypeOf x = base := by
  unfold Field_set_core at h
  split at h
  · simp at h
  · rename_i value_to_set heq
    split at heq
    · exact absurd rfl hx
    · rename_i w hw
      split at heq
      · rename_i hb
        simp only [Except.ok.injEq] at heq
        subst heq
        split at h
        · simp only [Except.ok.injEq] at h
          exact ⟨h.symm, hb⟩
        · split at h
          · simp only [Except.ok.injEq] at h
            exact ⟨h.symm, hb⟩
          · simp at h
      · simp at heq

/-- Helper: the values accepted by the Coordinate type pattern are exactly
the 2-tuples of floats. -/
theorem isFloatPair_shape (x : PyVal) (h : isFloatPair x = true) :
    ∃ a b, x = .tupV [.floatV a, .floatV b] := by
  unfold isFloatPair at h
  split at h
  · rename_i a b
    exact ⟨a, b, rfl⟩
  · simp at h

/-- Claim C1 (corrected): for a freshly bound legal non-None value x,
composing the decomposed slot values from a fresh forward-only cursor yields
x back (under Python ==) for every Scalar variant (int, float including the
int-to-float coercion, string), for DateTime (in particular the seven-slot
round trip of the 2020-01-02T03:04:05.000006 scenario), for Coordinate, and
for a Foreign field holding a pk — but for a Foreign field eagerly holding a
referenced object, composition yields the referenced object's pk, not the
object. -/
theorem claim_C1_theorem (spec : FieldSpec) (x : PyVal) (st : FieldSt)
    (flag' : Option Bool) (ds rest : List PyVal)
    (hx : x ≠ .none)
    (hdt : ∀ y mo d h mi s us, x = .dtV y mo d h mi s us →
      dtValid y mo d h mi s us = true)
    (hset : fieldSet spec Option.none x = .ok (st, flag'))
    (hdec : decomposeField spec st flag' = .ok ds) :
    ∃ y, fieldCompose spec (ds ++ rest) = .ok (y, rest) ∧
      ((∃ tn i, x = .objV tn i ∧ y = pkToVal i.pk) ∨ pyEq y x = true) := by
  cases spec with
  | integer c =>
    simp only [fieldSet] at hset
    split at hset
    · simp at hset
    · rename_i v hv
      obtain ⟨hvx, hty⟩ := Field_set_core_value c .intT x v hx hv
      subst hvx
      simp only [Except.ok.injEq, Prod.mk.injEq] at hset
      obtain ⟨h1, h2⟩ := hset
      subst h1
      cases v <;> simp [pyTypeOf] at hty
      rename_i n
      simp only [decomposeField, Except.ok.injEq] at hdec
      subst hdec
      exact ⟨.intV n, by simp [fieldCompose], Or.inr (by simp [pyEq])⟩
  | string c =>
    simp only [fieldSet] at hset
    split at hset
    · simp at hset
    · rename_i v hv
      obtain ⟨hvx, hty⟩ := Field_set_core_value c .strT x v hx hv
      subst hvx
      simp only [Except.ok.injEq, Prod.mk.injEq] at hset
      obtain ⟨h1, h2⟩ := hset
      subst h1
      cases v <;> simp [pyTypeOf] at hty
      rename_i str
      simp only [decomposeField, Except.ok.injEq] at hdec
      subst hdec
      exact ⟨.strV str, by simp [fieldCompose], Or.inr (by simp [pyEq])⟩
  | float c =>
    simp only [fieldSet] at hset
    split at hset
    · simp at hset
    · rename_i v hv
      cases x with
      | none => exact absurd rfl hx
      | intV n =>
        obtain ⟨hvx, hty⟩ := Field_set_core_value c .floatT (.floatV (n : ℚ)) v
          (by simp) hv
        subst hvx
        simp only [Except.ok.injEq, Prod.mk.injEq] at hset
        obtain ⟨h1, h2⟩ := hset
        subst h1
        simp only [decomposeField, Except.ok.injEq] at hdec
        subst hdec
        exact ⟨.floatV (n : ℚ), by simp [fieldCompose], Or.inr (by simp [pyEq])⟩
      | floatV q =>
        obtain ⟨hvx, hty⟩ := Field_set_core_value c .floatT (.floatV q) v (by simp) hv
        subst hvx
        simp only [Except.ok.injEq, Prod.mk.injEq] at hset
        obtain ⟨h1, h2⟩ := hset
        subst h1
        simp only [decomposeField, Except.ok.injEq] at hdec
        subst hdec
        exact ⟨.floatV q, by simp [fieldCompose], Or.inr (by simp [pyEq])⟩
      | strV str =>
        obtain ⟨hvx, hty⟩ := Field_set_core_value c .floatT (.strV str) v (by simp) hv
        simp [pyTypeOf] at hty
      | dtV a b cc d e f g =>
        obtain ⟨hvx, hty⟩ := Field_set_core_value c .floatT (.dtV a b cc d e f g) v
          (by simp) hv
        simp [pyTypeOf] at hty
      | tupV xs =>
        obtain ⟨hvx, hty⟩ := Field_set_core_value c .floatT (.tupV xs) v (by simp) hv
        simp [pyTypeOf] at hty
      | objV tn i =>
        obtain ⟨hvx, hty⟩ := Field_set_core_value c .floatT (.objV tn i) v (by simp) hv
        simp [pyTypeOf] at hty
  | dateTime c =>
    simp only [fieldSet] at hset
    split at hset
    · simp at hset
    · rename_i v hv
      obtain ⟨hvx, hty⟩ := Field_set_core_value c .datetimeT x v hx hv
      subst hvx
      cases v <;> simp [pyTypeOf] at hty
      rename_i y mo d h mi s us
      dsimp only at hset
      simp only [Except.ok.injEq, Prod.mk.injEq] at hset
      obtain ⟨h1, h2⟩ := hset
      subst h1
      simp only [decomposeField, Except.ok.injEq] at hdec
      subst hdec
      refine ⟨.dtV y mo d h mi s us, ?_, Or.inr (by simp [pyEq])⟩
      simp only [fieldCompose, List.cons_append, List.nil_append, mkDatetime]
      rw [hdt y mo d h mi s us rfl]
      rfl
  | coordinate c =>
    simp only [fieldSet] at hset
    split at hset
    · simp at hset
    · rename_i value_to_set heq
      cases x with
      | none => exact absurd rfl hx
      | intV n => exact Except.noConfusion heq
      | floatV q => exact Except.noConfusion heq
      | strV str => exact Except.noConfusion heq
      | dtV a bb cc d e f g => exact Except.noConfusion heq
      | objV tn i => exact Except.noConfusion heq
      | tupV xs =>
      by_cases hfp : isFloatPair (.tupV xs) = true
      case neg =>
        rw [if_neg (by simpa using hfp)] at heq
        exact Except.noConfusion heq
      case pos =>
      rw [if_pos (by simpa using hfp)] at heq
      have hv2 : PyVal.tupV xs = value_to_set := Except.ok.inj heq
      subst hv2
      obtain ⟨qa, qb, hxs⟩ := isFloatPair_shape (.tupV xs) hfp
      simp only [PyVal.tupV.injEq] at hxs
      subst hxs
      dsimp only at hset
      split at hset
      · simp at hset
      · split at hset
        · simp only [Except.ok.injEq, Prod.mk.injEq] at hset
          obtain ⟨h1, h2⟩ := hset
          subst h1
          simp only [decomposeField, Except.ok.injEq] at hdec
          subst hdec
          exact ⟨.tupV [.floatV qa, .floatV qb], by simp [fieldCompose],
            Or.inr (by simp [pyEq, pyEqList])⟩
        · split at hset
          · simp only [Except.ok.injEq, Prod.mk.injEq] at hset
            obtain ⟨h1, h2⟩ := hset
            subst h1
            simp only [decomposeField, Except.ok.injEq] at hdec
            subst hdec
            exact ⟨.tupV [.floatV qa, .floatV qb], by simp [fieldCompose],
              Or.inr (by simp [pyEq, pyEqList])⟩
          · simp at hset
  | foreign b ref =>
    simp only [fieldSet] at hset
    cases x with
    | none => exact absurd rfl hx
    | intV p =>
      dsimp only [Option.getD] at hset
      rw [if_pos rfl] at hset
      simp only [Except.ok.injEq, Prod.mk.injEq] at hset
      obtain ⟨h1, h2⟩ := hset
      subst h1
      subst h2
      simp only [decomposeField, Except.ok.injEq] at hdec
      subst hdec
      exact ⟨.intV p, by simp [fieldCompose], Or.inr (by simp [pyEq])⟩
    | objV tn i =>
      dsimp only at hset
      split at hset
      · simp only [Except.ok.injEq, Prod.mk.injEq] at hset
        obtain ⟨h1, h2⟩ := hset
        subst h1
        subst h2
        simp only [decomposeField, Except.ok.injEq] at hdec
        subst hdec
        exact ⟨pkToVal i.pk, by simp [fieldCompose], Or.inl ⟨tn, i, rfl, rfl⟩⟩
      · simp at hset
    | floatV q => exact Except.noConfusion hset
    | strV str => exact Except.noConfusion hset
    | dtV a bb cc d e f g => exact Except.noConfusion hset
    | tupV xs => exact Except.noConfusion hset

/-- A DateTime field with no default and no choices. -/
def exDtSpec : FieldSpec := .dateTime ⟨false, .dtV 1969 12 31 19 0 0 0, Option.none⟩

theorem claim_C1_witness :
    fieldSet exDtSpec Option.none (.dtV 2020 1 2 3 4 5 6) =
      .ok (.dtSt (.dtV 2020 1 2 3 4 5 6) 2020 1 2 3 4 5 6, Option.none) ∧
    decomposeField exDtSpec (.dtSt (.dtV 2020 1 2 3 4 5 6) 2020 1 2 3 4 5 6)
        Option.none =
      .ok [.intV 2020, .intV 1, .intV 2, .intV 3, .intV 4, .intV 5, .intV 6] ∧
    (∃ y, fieldCompose exDtSpec
        ([PyVal.intV 2020, .intV 1, .intV 2, .intV 3, .intV 4, .intV 5, .intV 6] ++ []) =
        .ok (y, []) ∧
      ((∃ tn i, PyVal.dtV 2020 1 2 3 4 5 6 = .objV tn i ∧ y = pkToVal i.pk) ∨
        pyEq y (.dtV 2020 1 2 3 4 5 6) = true)) :=
  ⟨rfl, rfl,
   claim_C1_theorem exDtSpec (.dtV 2020 1 2 3 4 5 6)
     (.dtSt (.dtV 2020 1 2 3 4 5 6) 2020 1 2 3 4 5 6) Option.none
     [.intV 2020, .intV 1, .intV 2, .intV 3, .intV 4, .intV 5, .intV 6] []
     (by simp)
     (by
       intro y mo d h mi s us hEq
       injection hEq with h1 h2 h3 h4 h5 h6 h7
       subst h1; subst h2; subst h3; subst h4; subst h5; subst h6; subst h7
       decide)
     rfl rfl⟩

/-- A referenced table type and a Persisted instance of it (pk 5), plus a
mandatory Foreign field referencing it. -/
def exRefTd : TableDef := .mk "Ref" []

def exForeignSpec : FieldSpec := .foreign false exRefTd

def exNested : Inst := .mk (some 5) (some 1) Option.none []

theorem claim_C1_counterexample :
    fieldSet exForeignSpec Option.none (.objV "Ref" exNested) =
      .ok (.foreignSt (.objV "Ref" exNested), some false) ∧
    decomposeField exForeignSpec (.foreignSt (.objV "Ref" exNested)) (some false) =
      .ok [.intV 5] ∧
    fieldCompose exForeignSpec [.intV 5] = .ok (.intV 5, []) ∧
    pyEq (.intV 5) (.objV "Ref" exNested) = false :=
  ⟨rfl, rfl, rfl, rfl⟩

/-- Claim C4 (corrected): with no default given, the resolved defaults are
0, 0.0, "" for the scalar variants, the fixed timestamp
1969-12-31T19:00:00.000000 for DateTime, and the int pair (0, 0) for
Coordinate (not a float pair); a literal default of the wrong type, or a
callable default returning the wrong type, fails with the declaration-time
ConfigError for every variant. -/
theorem claim_C4_theorem :
    (∀ blank, Integer_init blank .noDefault Option.none =
      .ok (.integer ⟨blank, .intV 0, Option.none⟩)) ∧
    (∀ blank, Float_init blank .noDefault Option.none =
      .ok (.float ⟨blank, .floatV 0, Option.none⟩)) ∧
    (∀ blank, String_init blank .noDefault Option.none =
      .ok (.string ⟨blank, .strV "", Option.none⟩)) ∧
    (∀ blank, DateTime_init blank .noDefault Option.none =
      .ok (.dateTime ⟨blank, .dtV 1969 12 31 19 0 0 0, Option.none⟩)) ∧
    (∀ blank, Coordinate_init blank .noDefault Option.none =
      .ok (.coordinate ⟨blank, .tupV [.intV 0, .intV 0], Option.none⟩)) ∧
    (∀ blank choices v, pyTypeOf v ≠ .intT →
      Integer_init blank (.lit v) choices = .error PyErr.configError) ∧
    (∀ blank choices r, pyTypeOf r ≠ .intT →
      Integer_init blank (.call r) choices = .error PyErr.configError) ∧
    (∀ blank choices v, pyTypeOf v ≠ .floatT →
      Float_init blank (.lit v) choices = .error PyErr.configError) ∧
    (∀ blank choices r, pyTypeOf r ≠ .floatT →
      Float_init blank (.call r) choices = .error PyErr.configError) ∧
    (∀ blank choices v, pyTypeOf v ≠ .strT →
      String_init blank (.lit v) choices = .error PyErr.configError) ∧
    (∀ blank choices r, pyTypeOf r ≠ .strT →
      String_init blank (.call r) choices = .error PyErr.configError) ∧
    (∀ blank choices v, pyTypeOf v ≠ .datetimeT →
      DateTime_init blank (.lit v) choices = .error PyErr.configError) ∧
    (∀ blank choices r, pyTypeOf r ≠ .datetimeT →
      DateTime_init blank (.call r) choices = .error PyErr.configError) ∧
    (∀ blank choices v, isFloatPair v = false →
      Coordinate_init blank (.lit v) choices = .error PyErr.configError) ∧
    (∀ blank choices r, isFloatPair r = false →
      Coordinate_init blank (.call r) choices = .error PyErr.configError) := by
  refine ⟨?_, ?_, ?_, ?_, ?_, ?_, ?_, ?_, ?_, ?_, ?_, ?_, ?_, ?_, ?_⟩
  · intro blank; cases blank <;> rfl
  · intro blank; cases blank <;> rfl
  · intro blank; cases blank <;> rfl
  · intro blank; cases blank <;> rfl
  · intro blank; cases blank <;> rfl
  · intro blank choices v h; simp [Integer_init, Field_init, Except.map, h]
  · intro blank choices r h; simp [Integer_init, Field_init, Except.map, h]
  · intro blank choices v h; simp [Float_init, Field_init, Except.map, h]
  · intro blank choices r h; simp [Float_init, Field_init, Except.map, h]
  · intro blank choices v h; simp [String_init, Field_init, Except.map, h]
  · intro blank choices r h; simp [String_init, Field_init, Except.map, h]
  · intro blank choices v h; simp [DateTime_init, Field_init, Except.map, h]
  · intro blank choices r h; simp [DateTime_init, Field_init, Except.map, h]
  · intro blank choices v h; simp [Coordinate_init, h]
  · intro blank choices r h; simp [Coordinate_init, h]

theorem claim_C4_counterexample :
    Coordinate_init false .noDefault Option.none =
      .ok (.coordinate ⟨false, .tupV [.intV 0, .intV 0], Option.none⟩) ∧
    Coordinate_init false (.lit (.tupV [.intV 0, .intV 0])) Option.none =
      .error PyErr.configError ∧
    PyVal.tupV [.intV 0, .intV 0] ≠ PyVal.tupV [.floatV 0, .floatV 0] :=
  ⟨rfl, rfl, by simp⟩

theorem claim_C4_witness :
    Integer_init false .noDefault Option.none =
      .ok (.integer ⟨false, .intV 0, Option.none⟩) ∧
    pyTypeOf (.strV "x") ≠ PyType.intT ∧
    Integer_init false (.lit (.strV "x")) Option.none = .error PyErr.configError ∧
    pyTypeOf (.strV "x") ≠ PyType.floatT ∧
    Float_init false (.call (.strV "x")) Option.none = .error PyErr.configError ∧
    isFloatPair (.tupV [.intV 1, .intV 2]) = false ∧
    Coordinate_init false (.lit (.tupV [.intV 1, .intV 2])) Option.none =
      .error PyErr.configError :=
  ⟨claim_C4_theorem.1 false,
   by simp [pyTypeOf],
   claim_C4_theorem.2.2.2.2.2.1 false Option.none (.strV "x") (by simp [pyTypeOf]),
   by simp [pyTypeOf],
   claim_C4_theorem.2.2.2.2.2.2.2.2.1 false Option.none (.strV "x") (by simp [pyTypeOf]),
   rfl,
   claim_C4_theorem.2.2.2.2.2.2.2.2.2.2.2.2.2.1 false Option.none
     (.tupV [.intV 1, .intV 2]) rfl⟩

/-- Claim C5 (corrected): binding None to a field with blank_allowed False
always fails with MissingValueError; with blank_allowed True the configured
default is stored and a subsequent read yields it — except that a Coordinate
field rechecks the latitude bound on the default, so an out-of-bounds
configured default raises ValueError instead of being stored, and a Foreign
field (which has no configured default) stores and reads back None.  The
choices hypothesis is the construction invariant that a blank-allowed field's
default belongs to its choices. -/
theorem claim_C5_theorem :
    (∀ (spec : FieldSpec) (flag : Option Bool), spec.blank_allowed = false →
      fieldSet spec flag .none = .error PyErr.missingValue) ∧
    (∀ (c : FieldCore) (flag : Option Bool), c.blank_allowed = true →
      (∀ cs, c.choices = some cs → pyMem c.default cs = true) →
      (fieldSet (.integer c) flag .none = .ok (.scalarSt c.default, flag) ∧
       fieldSet (.float c) flag .none = .ok (.scalarSt c.default, flag) ∧
       fieldSet (.string c) flag .none = .ok (.scalarSt c.default, flag) ∧
       (∀ deref, fieldGet (.integer c) (.scalarSt c.default) flag deref = .ok c.default) ∧
       (∀ deref, fieldGet (.float c) (.scalarSt c.default) flag deref = .ok c.default) ∧
       (∀ deref, fieldGet (.string c) (.scalarSt c.default) flag deref = .ok c.default))) ∧
    (∀ (c : FieldCore) (flag : Option Bool) (y mo d h mi s us : Int),
      c.blank_allowed = true → c.default = .dtV y mo d h mi s us →
      (∀ cs, c.choices = some cs → pyMem c.default cs = true) →
      (fieldSet (.dateTime c) flag .none = .ok (.dtSt c.default y mo d h mi s us, flag) ∧
       ∀ deref, fieldGet (.dateTime c) (.dtSt c.default y mo d h mi s us) flag deref =
         .ok c.default)) ∧
    (∀ (c : FieldCore) (flag : Option Bool) (a b : PyVal),
      c.blank_allowed = true → c.default = .tupV [a, b] →
      is_valid_coordinate a = true → is_valid_coordinate b = true →
      (∀ cs, c.choices = some cs → pyMem c.default cs = true) →
      (fieldSet (.coordinate c) flag .none = .ok (.coordSt a b, flag) ∧
       ∀ deref, fieldGet (.coordinate c) (.coordSt a b) flag deref = .ok (.tupV [a, b]))) ∧
    (∀ (c : FieldCore) (flag : Option Bool) (a b : PyVal),
      c.blank_allowed = true → c.default = .tupV [a, b] →
      (is_valid_coordinate a = false ∨ is_valid_coordinate b = false) →
      fieldSet (.coordinate c) flag .none = .error PyErr.boundsValue) ∧
    (∀ (ref : TableDef) (flag : Option Bool)
        (deref : String → PyVal → Except PyErr PyVal),
      fieldSet (.foreign true ref) flag .none = .ok (.foreignSt .none, flag) ∧
      fieldGet (.foreign true ref) (.foreignSt .none) flag deref = .ok .none) := by
  refine ⟨?_, ?_, ?_, ?_, ?_, ?_⟩
  · intro spec flag h
    cases spec <;> simp only [FieldSpec.blank_allowed] at h <;>
      simp [fieldSet, Field_set_core, h]
  · intro c flag hb hch
    refine ⟨?_, ?_, ?_, fun _ => rfl, fun _ => rfl, fun _ => rfl⟩ <;>
      · simp only [fieldSet, Field_set_core, hb, if_pos]
        cases hc : c.choices with
        | none => rfl
        | some cs => dsimp only; rw [hch cs hc]; rfl
  · intro c flag y mo d h mi s us hb hdef hch
    constructor
    · simp only [fieldSet, Field_set_core, hb, if_pos]
      have hm := hch
      cases hc : c.choices with
      | none => dsimp only; rw [hdef]
      | some cs =>
        have hmem : pyMem (PyVal.dtV y mo d h mi s us) cs = true := hdef ▸ hm cs hc
        rw [hdef]
        simp [hmem]
    · intro deref; rfl
  · intro c flag a b hb hdef hva hvb hch
    constructor
    · simp only [fieldSet, hb, if_pos]
      cases hc : c.choices with
      | none =>
        rw [hdef]
        dsimp only
        rw [if_neg (by simp [hva, hvb])]
      | some cs =>
        rw [hdef]
        dsimp only
        rw [if_neg (by simp [hva, hvb])]
        rw [show pyMem (PyVal.tupV [a, b]) cs = true from hdef ▸ hch cs hc]
        rfl
    · intro deref; rfl
  · intro c flag a b hb hdef hv
    simp only [fieldSet, hb, if_pos]
    rw [hdef]
    dsimp only
    rw [if_pos (by rcases hv with hv | hv <;> simp [hv])]
  · intro ref flag deref
    exact ⟨by simp [fieldSet], rfl⟩

/-- A Coordinate field whose configured default (100.0, 0.0) is out of
bounds; Coordinate.__init__ accepts it (no bound check at declaration
time). -/
def exCoordBad : FieldSpec :=
  .coordinate ⟨true, .tupV [.floatV 100, .floatV 0], Option.none⟩

theorem claim_C5_counterexample :
    Coordinate_init false (.lit (.tupV [.floatV 100, .floatV 0])) Option.none =
      .ok exCoordBad ∧
    FieldSpec.blank_allowed exCoordBad = true ∧
    fieldSet exCoordBad Option.none .none = .error PyErr.boundsValue :=
  ⟨rfl, rfl, rfl⟩

theorem claim_C5_witness :
    FieldSpec.blank_allowed exIntSpec = false ∧
    fieldSet exIntSpec Option.none .none = .error PyErr.missingValue ∧
    fieldSet (.foreign true exTdChild) Option.none .none =
      .ok (.foreignSt .none, Option.none) ∧
    fieldGet (.foreign true exTdChild) (.foreignSt .none) Option.none
      (fun _ _ => .error PyErr.keyError) = .ok .none :=
  ⟨rfl, claim_C5_theorem.1 exIntSpec Option.none rfl,
   (claim_C5_theorem.2.2.2.2.2 exTdChild Option.none
     (fun _ _ => .error PyErr.keyError)).1,
   (claim_C5_theorem.2.2.2.2.2 exTdChild Option.none
     (fun _ _ => .error PyErr.keyError)).2⟩

/-- Helper: once the criterion key parses to a column and operator, the query
translation is the body on them. -/
theorem filter_scan_parse (store : StoreModel) (td : TableDef) (k : String)
    (v : PyVal) (col op : String) (hk : parseKey k = .ok (col, op)) :
    MetaTable_filter_scan store td (some (k, v)) =
      MetaTable_filter_body store td col op v := by
  simp only [MetaTable_filter_scan, hk]

/-- Claim C6 (corrected): the operator defaults to eq when the key carries no
double-underscore suffix; an operator outside the set ne, gt, lt, eq AND the
internal match-all marker al fails with UnsupportedOperatorError (a
caller-supplied al suffix is accepted and performs a match-all scan, so the
claim's set without al is too small); with one of the four comparison
operators, a column that is neither a declared field name nor the synthetic
identity column id fails with UnknownFieldError (with op al the column check
is skipped). -/
theorem claim_C6_theorem :
    (∀ k : String, containsUU k.data = false → parseKey k = .ok (k, "eq")) ∧
    (∀ (store : StoreModel) (td : TableDef) (k : String) (v : PyVal)
        (col op : String),
      parseKey k = .ok (col, op) →
      (["ne", "gt", "lt", "al", "eq"].contains op) = false →
      MetaTable_filter_scan store td (some (k, v)) =
        .error PyErr.unsupportedOperator) ∧
    (∀ (store : StoreModel) (td : TableDef) (k : String) (v : PyVal)
        (col op : String),
      parseKey k = .ok (col, op) →
      (["ne", "gt", "lt", "eq"].contains op) = true →
      (td.fieldNames ++ ["id"]).contains col = false →
      MetaTable_filter_scan store td (some (k, v)) = .error PyErr.unknownField) := by
  refine ⟨?_, ?_, ?_⟩
  · intro k h
    simp [parseKey, h]
  · intro store td k v col op hk hop
    rw [filter_scan_parse store td k v col op hk]
    unfold MetaTable_filter_body
    rw [if_pos hop]
  · intro store td k v col op hk hop hcol
    rw [filter_scan_parse store td k v col op hk]
    unfold MetaTable_filter_body
    have hops : op = "ne" ∨ op = "gt" ∨ op = "lt" ∨ op = "eq" := by simpa using hop
    rcases hops with rfl | rfl | rfl | rfl <;>
      · rw [if_neg (by decide)]
        rw [if_pos ⟨by decide, hcol⟩]

/-- A table with one DateTime column named when. -/
def exTdEvent : TableDef := .mk "Event" [("when", exDtSpec)]

/-- A concrete Store whose scans return the empty set for the when_year slot
and the pk set [5] for every other slot probe; its match-all scan returns
[1, 2]. -/
def exScanStore : StoreModel where
  get := fun _ _ => ([], 0)
  scan := fun _ _ c _ => if c = "when_year" then [] else [5]
  scanAll := fun _ => [1, 2]
  insert := fun _ _ => (1, 1)
  update := fun _ _ _ _ => 1

theorem claim_C6_counterexample :
    MetaTable_filter_scan exScanStore exTdEvent (some ("when__al", .strV "x")) =
      .ok ([.scanAllC "Event"], [1, 2]) ∧
    (Except.ok ([StoreCall.scanAllC "Event"], [1, 2]) :
        Except PyErr (List StoreCall × List Int)) ≠
      .error PyErr.unsupportedOperator :=
  ⟨rfl, fun h => Except.noConfusion h⟩

theorem claim_C6_witness :
    containsUU "when".data = false ∧
    parseKey "when" = .ok ("when", "eq") ∧
    parseKey "when__xx" = .ok ("when", "xx") ∧
    MetaTable_filter_scan exScanStore exTdEvent (some ("when__xx", .strV "x")) =
      .error PyErr.unsupportedOperator ∧
    MetaTable_filter_scan exScanStore exTdEvent (some ("bogus", .strV "x")) =
      .error PyErr.unknownField :=
  ⟨rfl, claim_C6_theorem.1 "when" rfl, rfl,
   claim_C6_theorem.2.1 exScanStore exTdEvent "when__xx" (.strV "x") "when" "xx"
     rfl rfl,
   claim_C6_theorem.2.2 exScanStore exTdEvent "bogus" (.strV "x") "bogus" "eq"
     rfl rfl rfl⟩

/-- Claim C2 (corrected): for a filter whose single criterion value is a
DateTime, the translator issues one scan per slot in declared-slot
significance order only when the value's microsecond is zero; with a nonzero
microsecond it issues a single scan, probing the year slot with the whole
datetime value.  In both cases the returned pk set is exactly the first
(year-slot) probe's result: the non-year probes are ignored (when the year
probe is empty, the intersection fallback is also empty), not the first
non-empty probe. -/
theorem claim_C2_theorem (store : StoreModel) (td : TableDef) (k col op : String)
    (c : FieldCore) (y mo d h mi s us : Int)
    (hk : parseKey k = .ok (col, op))
    (hop : (["ne", "gt", "lt", "eq"].contains op) = true)
    (hid : ¬(col = "id"))
    (hmem : (td.fieldNames ++ ["id"]).contains col = true)
    (hlook : lookupField td col = some (.dateTime c)) :
    (us = 0 →
      MetaTable_filter_scan store td (some (k, .dtV y mo d h mi s us)) =
        .ok ([.scanC td.name (mapOp op) (col ++ "_year") (.intV y),
              .scanC td.name (mapOp op) (col ++ "_month") (.intV mo),
              .scanC td.name (mapOp op) (col ++ "_day") (.intV d),
              .scanC td.name (mapOp op) (col ++ "_hour") (.intV h),
              .scanC td.name (mapOp op) (col ++ "_minute") (.intV mi),
              .scanC td.name (mapOp op) (col ++ "_second") (.intV s),
              .scanC td.name (mapOp op) (col ++ "_microsecond") (.intV 0)],
             store.scan td.name (mapOp op) (col ++ "_year") (.intV y))) ∧
    (¬(us = 0) →
      MetaTable_filter_scan store td (some (k, .dtV y mo d h mi s us)) =
        .ok ([.scanC td.name (mapOp op) (col ++ "_year") (.dtV y mo d h mi s us)],
             store.scan td.name (mapOp op) (col ++ "_year")
               (.dtV y mo d h mi s us))) := by
  have hops : op = "ne" ∨ op = "gt" ∨ op = "lt" ∨ op = "eq" := by simpa using hop
  constructor
  · intro hus
    subst hus
    rw [filter_scan_parse store td k _ col op hk]
    unfold MetaTable_filter_body
    by_cases hr : store.scan td.name (mapOp op) (col ++ "_year") (.intV y) = []
    all_goals rcases hops with rfl | rfl | rfl | rfl
    all_goals
      rw [if_neg (by decide)]
      rw [if_neg (by intro hc; rw [hmem] at hc; simp at hc)]
      rw [if_neg hid, hlook]
      dsimp only [fieldSchema, List.map, List.zip, List.zipWith]
      rw [if_neg (by decide)]
      simp [listIntersect, hr]
  · intro hus
    rw [filter_scan_parse store td k _ col op hk]
    unfold MetaTable_filter_body
    rcases hops with rfl | rfl | rfl | rfl
    all_goals
      rw [if_neg (by decide)]
      rw [if_neg (by intro hc; rw [hmem] at hc; simp at hc)]
      rw [if_neg hid, hlook]
      dsimp only [fieldSchema, List.map, List.zip, List.zipWith]
      rw [if_neg hus]
      rw [if_neg (by decide)]
      simp

theorem claim_C2_counterexample :
    MetaTable_filter_scan exScanStore exTdEvent
        (some ("when", .dtV 2020 1 2 3 4 5 0)) =
      .ok ([.scanC "Event" .EQ "when_year" (.intV 2020),
            .scanC "Event" .EQ "when_month" (.intV 1),
            .scanC "Event" .EQ "when_day" (.intV 2),
            .scanC "Event" .EQ "when_hour" (.intV 3),
            .scanC "Event" .EQ "when_minute" (.intV 4),
            .scanC "Event" .EQ "when_second" (.intV 5),
            .scanC "Event" .EQ "when_microsecond" (.intV 0)], []) ∧
    exScanStore.scan "Event" .EQ "when_year" (.intV 2020) = [] ∧
    exScanStore.scan "Event" .EQ "when_month" (.intV 1) = [5] ∧
    (([] : List Int) ≠ [5]) :=
  ⟨rfl, rfl, rfl, by simp⟩

theorem claim_C2_witness :
    (MetaTable_filter_scan exScanStore exTdEvent
        (some ("when", .dtV 2020 1 2 3 4 5 0)) =
      .ok ([.scanC exTdEvent.name (mapOp "eq") ("when" ++ "_year") (.intV 2020),
            .scanC exTdEvent.name (mapOp "eq") ("when" ++ "_month") (.intV 1),
            .scanC exTdEvent.name (mapOp "eq") ("when" ++ "_day") (.intV 2),
            .scanC exTdEvent.name (mapOp "eq") ("when" ++ "_hour") (.intV 3),
            .scanC exTdEvent.name (mapOp "eq") ("when" ++ "_minute") (.intV 4),
            .scanC exTdEvent.name (mapOp "eq") ("when" ++ "_second") (.intV 5),
            .scanC exTdEvent.name (mapOp "eq") ("when" ++ "_microsecond") (.intV 0)],
           exScanStore.scan exTdEvent.name (mapOp "eq") ("when" ++ "_year")
             (.intV 2020))) ∧
    (MetaTable_filter_scan exScanStore exTdEvent
        (some ("when", .dtV 2020 1 2 3 4 5 6)) =
      .ok ([.scanC exTdEvent.name (mapOp "eq") ("when" ++ "_year")
              (.dtV 2020 1 2 3 4 5 6)],
           exScanStore.scan exTdEvent.name (mapOp "eq") ("when" ++ "_year")
             (.dtV 2020 1 2 3 4 5 6))) :=
  ⟨(claim_C2_theorem exScanStore exTdEvent "when" "when" "eq"
      ⟨false, .dtV 1969 12 31 19 0 0 0, Option.none⟩ 2020 1 2 3 4 5 0
      rfl rfl (by decide) rfl rfl).1 rfl,
   (claim_C2_theorem exScanStore exTdEvent "when" "when" "eq"
      ⟨false, .dtV 1969 12 31 19 0 0 0, Option.none⟩ 2020 1 2 3 4 5 6
      rfl rfl (by decide) rfl rfl).2 (by decide)⟩
